import Mathlib

/-!
Shallow embedding of the RPK codec (`rpk.h`): the color model and hash,
the 128-entry cache, the encoder state machine (`rpk_encode` and the
`RPK_PRINT` flush macro) and the decoder state machine (`rpk_decode`),
plus the file framing of `rpk_write` / `rpk_read`.

Pixels are the C `color` union: four 8-bit components overlaid with a
32-bit little-endian packed value `rgba`.  Machine integers are modelled
as `Nat` with explicit truncation (`% 256`) where the C code narrows.
-/

namespace RPK

/-- The C `color` union's struct view: bytes `red, green, blue, alpha`. -/
structure Color where
  red : Nat
  green : Nat
  blue : Nat
  alpha : Nat
deriving DecidableEq, Repr

/-- The 32-bit overlay `color.rgba` of the union (little-endian layout:
`red` is the least significant byte). -/
def Color.rgba (c : Color) : Nat :=
  c.red + 256 * c.green + 65536 * c.blue + 16777216 * c.alpha

/-- Reading the four byte fields out of a 32-bit packed value (the byte
view of the union after an assignment to `.rgba`). -/
def colorOfRgba (n : Nat) : Color :=
  ⟨n % 256, n / 256 % 256, n / 65536 % 256, n / 16777216 % 256⟩

/-- The all-zero pixel: the initial content of every cache slot
(`color cache[128] = {0}`). -/
def zeroColor : Color := ⟨0, 0, 0, 0⟩

/-- The initial `current` pixel of both sides: `(color){.alpha=255}`. -/
def initColor : Color := ⟨0, 0, 0, 255⟩

/-- The `HASH(C)` macro:
`((((88^C.red)*13^C.green)*13^C.blue)*13^C.alpha)&127`. -/
def HASH (c : Color) : Nat :=
  ((((88 ^^^ c.red) * 13 ^^^ c.green) * 13 ^^^ c.blue) * 13 ^^^ c.alpha) &&& 127

/-- The `EQCOLOR(a,b)` macro: whole-pixel equality through the packed
32-bit view (`a.rgba == b.rgba`). -/
def EQCOLOR (a b : Color) : Prop := a.rgba = b.rgba

instance (a b : Color) : Decidable (EQCOLOR a b) := by
  unfold EQCOLOR; infer_instance

/-- `type2mask.rgba` for `(color){.red=0xE0,.green=0xC0,.blue=0xE0,.alpha=0xFF}`. -/
def type2maskRgba : Nat := 0xFFE0C0E0

/-- Encoder state of `rpk_encode`: the cache, the previous pixel (the C
variable `current`, which becomes `last` at the top of the next
iteration), the pending run type (`uint8_t runtype`, initially `-1`,
i.e. 255), the pending run length, and the argument scratch buffer
(modelled as the list of bytes written so far, in index order). -/
structure EncState where
  cache : List Color
  prev : Color
  runtype : Nat
  run : Nat
  buffer : List Nat
deriving Repr

/-- Initial encoder state. -/
def encInit : EncState :=
  ⟨List.replicate 128 zeroColor, initColor, 255, 0, []⟩

/-- The byte list written by the run-type-0 branch of `RPK_PRINT` for a
pending run of length `run`: one byte for lengths up to 16, otherwise
the biased two- or three-byte extended form. -/
def flushRun0 (run : Nat) : List Nat :=
  if run ≤ 16 then
    [(128 + (0 <<< 5) + (run - 1)) % 256]
  else
    let r := run - 17
    if r < 2048 then
      [(128 + (0 <<< 5) + (16 + (r >>> 8))) % 256, r &&& 0xFF]
    else
      let r2 := r - 2048
      [(128 + (0 <<< 5) + (24 + (r2 >>> 16))) % 256, (r2 >>> 8) &&& 0xFF, r2 &&& 0xFF]

/-- The `RPK_PRINT(b)` macro: flush the pending run (opcode byte - for a
typed run `PACKRUN(runtype, run-1)` followed by the buffered arguments,
for a type-0 run the extended-length form), then emit `b` itself when
`b < 128`, and reset `run` to 0.  A typed flush also sets `runtype` to
`-1` (255).  Returns the emitted bytes and the new state. -/
def rpkPrint (channels : Nat) (s : EncState) (b : Nat) : List Nat × EncState :=
  let flushBytes :=
    if s.run = 0 then []
    else if s.runtype ≠ 0 then
      ((128 + (s.runtype <<< 5) + (s.run - 1)) % 256) ::
        s.buffer.take (min (1 <<< (s.runtype - 1)) channels * s.run)
    else flushRun0 s.run
  let rt := if s.run ≠ 0 ∧ s.runtype ≠ 0 then 255 else s.runtype
  (flushBytes ++ if b < 128 then [b % 256] else [],
   { s with runtype := rt, run := 0, buffer := [] })

/-- The type-1 argument byte
`(diff.alpha|diff.blue<<2|diff.green<<4|diff.red<<6)&0xFF`. -/
def type1Arg (diff : Color) : Nat :=
  (diff.alpha ||| diff.blue <<< 2 ||| diff.green <<< 4 ||| diff.red <<< 6) &&& 0xFF

/-- First type-2 argument byte `(diff.red<<3|LRS(diff.green,3))&0xFF`. -/
def type2Arg1 (diff : Color) : Nat :=
  (diff.red <<< 3 ||| diff.green >>> 3) &&& 0xFF

/-- Second type-2 argument byte `(diff.green<<5|diff.blue&0x1F)&0xFF`. -/
def type2Arg2 (diff : Color) : Nat :=
  (diff.green <<< 5 ||| (diff.blue &&& 0x1F)) &&& 0xFF

/-- The type-3 literal bytes `current.red, current.green, current.blue`
plus `current.alpha` when `channels == 4`. -/
def type3Args (channels : Nat) (p : Color) : List Nat :=
  [p.red, p.green, p.blue] ++ if channels = 4 then [p.alpha] else []

/-- One iteration of the pixel loop of `rpk_encode` on input pixel `p`.
Returns `(emitted bytes, buffer indices written this step, new state)`.
The write-index list records the exact indices the C code uses in its
`buffer[...]` stores (`run`, `run*2`/`run*2+1`, `run*channels + k`). -/
def encStep (channels : Nat) (s : EncState) (p : Color) : List Nat × List Nat × EncState :=
  if EQCOLOR p s.prev then
    if s.runtype = 0 ∧ s.run < 526352 then
      ([], [], { s with run := s.run + 1, prev := p })
    else
      let pr := rpkPrint channels s 128
      (pr.1, [], { pr.2 with run := 1, runtype := 0, prev := p })
  else
    let d := p.rgba ^^^ s.prev.rgba
    let diff := colorOfRgba d
    if d &&& 0xFCFCFCFC = 0 ∧ s.run ≠ 0 ∧ s.runtype = 1 then
      -- `goto smalldiff`: extend the type-1 run greedily, no flush check
      ([], [s.run],
       { s with buffer := s.buffer ++ [type1Arg diff], run := s.run + 1, runtype := 1,
                cache := s.cache.set (HASH p) p, prev := p })
    else if EQCOLOR p (s.cache.getD (HASH p) zeroColor) then
      let pr := rpkPrint channels s (HASH p)
      (pr.1, [], { pr.2 with prev := p })
    else if d &&& 0xFCFCFCFC = 0 ∧ s.runtype ≠ 2 then
      let pr := if (s.run ≠ 0 ∧ s.runtype ≠ 1) ∨ s.run = 32 then rpkPrint channels s 128
                else ([], s)
      let s1 := pr.2
      (pr.1, [s1.run],
       { s1 with buffer := s1.buffer ++ [type1Arg diff], run := s1.run + 1, runtype := 1,
                 cache := s1.cache.set (HASH p) p, prev := p })
    else if d &&& type2maskRgba = 0 then
      let pr := if (s.run ≠ 0 ∧ s.runtype ≠ 2) ∨ s.run = 32 then rpkPrint channels s 128
                else ([], s)
      let s1 := pr.2
      (pr.1, [2 * s1.run, 2 * s1.run + 1],
       { s1 with buffer := s1.buffer ++ [type2Arg1 diff, type2Arg2 diff], run := s1.run + 1,
                 runtype := 2, cache := s1.cache.set (HASH p) p, prev := p })
    else
      let pr := if (s.run ≠ 0 ∧ s.runtype ≠ 3) ∨ s.run = 32 then rpkPrint channels s 128
                else ([], s)
      let s1 := pr.2
      (pr.1,
       [channels * s1.run, channels * s1.run + 1, channels * s1.run + 2] ++
         (if channels = 4 then [4 * s1.run + 3] else []),
       { s1 with buffer := s1.buffer ++ type3Args channels p, run := s1.run + 1,
                 runtype := 3, cache := s1.cache.set (HASH p) p, prev := p })

/-- Run the encoder over a pixel list, accumulating emitted bytes and
buffer write indices. -/
def encGo (channels : Nat) : EncState → List Color → List Nat × List Nat × EncState
  | s, [] => ([], [], s)
  | s, p :: ps =>
    let r := encStep channels s p
    let rest := encGo channels r.2.2 ps
    (r.1 ++ rest.1, r.2.1 ++ rest.2.1, rest.2.2)

/-- Encoder state after consuming all pixels (before the final flush). -/
def encFinal (channels : Nat) (ps : List Color) : EncState :=
  (encGo channels encInit ps).2.2

/-- All buffer write indices used while consuming `ps`. -/
def encWrites (channels : Nat) (ps : List Color) : List Nat :=
  (encGo channels encInit ps).2.1

/-- The full codec payload of `rpk_encode`: the bytes emitted while
consuming the pixels followed by the final `RPK_PRINT(0)` flush (which
also emits the byte `0`, since `0 < 128`). -/
def encodePixels (channels : Nat) (ps : List Color) : List Nat :=
  let r := encGo channels encInit ps
  r.1 ++ (rpkPrint channels r.2.2 0).1

/-- Error kinds of the spec's taxonomy, assigned by detection site: a
short read (`fread` returning less than requested / `RPK_READ` failing)
is `truncated`, a magic-string mismatch (`memcmp(magic,"rpk",3)`) is
`badMagic`. -/
inductive RpkError where
  | badMagic
  | truncated
deriving DecidableEq, Repr

/-- Decoder state of `rpk_decode`: cache, `current`, and the remaining
run (`runtype` is only consulted while `run` is live; it is modelled
with initial value 0). -/
structure DecState where
  cache : List Color
  current : Color
  runtype : Nat
  run : Nat
deriving Repr

/-- Initial decoder state. -/
def decInit : DecState :=
  ⟨List.replicate 128 zeroColor, initColor, 0, 0⟩

/-- The run-type-0 length parse of `rpk_decode` (including the final
`run++`), given the opcode byte `cbyte` and the remaining input: the
cascade of masked shifts on `run = cbyte & 0x1F`, reading up to two
extra bytes.  Returns the decoded length and the remaining bytes. -/
def run0Length (cbyte : Nat) (bs : List Nat) : Except RpkError (Nat × List Nat) :=
  let run := cbyte &&& 0x1F
  if 16 ≤ run then
    let run := run &&& 15
    if 8 ≤ run then
      let run := run &&& 7
      match bs with
      | [] => .error .truncated
      | b1 :: bs1 =>
        let run := ((run <<< 8) ||| b1) + 8
        match bs1 with
        | [] => .error .truncated
        | b2 :: bs2 => .ok ((((run <<< 8) ||| b2) + 16) + 1, bs2)
    else
      match bs with
      | [] => .error .truncated
      | b2 :: bs2 => .ok ((((run <<< 8) ||| b2) + 16) + 1, bs2)
  else .ok (run + 1, bs)

/-- The `runcont` tail of the decoder loop: `run--`, then per `runtype`
read the argument bytes and update `current` (type 1: 2-bit XOR deltas,
alpha only when `channels > 3`; type 2: 5/6/5 XOR deltas; type 3:
`channels` literal bytes; type 0: nothing), then store `current` into
`cache[HASH(current)]` and emit it. -/
def runcont (channels : Nat) (s : DecState) (bs : List Nat) :
    Except RpkError (Color × DecState × List Nat) :=
  if s.runtype = 1 then
    match bs with
    | [] => .error .truncated
    | b :: bs1 =>
      let cur : Color :=
        { red := s.current.red ^^^ ((b >>> 6) &&& 3)
          green := s.current.green ^^^ ((b >>> 4) &&& 3)
          blue := s.current.blue ^^^ ((b >>> 2) &&& 3)
          alpha := if 3 < channels then s.current.alpha ^^^ (b &&& 3) else s.current.alpha }
      .ok (cur, { s with current := cur, run := s.run - 1, cache := s.cache.set (HASH cur) cur }, bs1)
  else if s.runtype = 2 then
    match bs with
    | b1 :: b2 :: bs2 =>
      let cur : Color :=
        { red := s.current.red ^^^ ((b1 >>> 3) &&& 0x1F)
          green := s.current.green ^^^ (((b1 &&& 7) <<< 3) ||| (b2 >>> 5))
          blue := s.current.blue ^^^ (b2 &&& 0x1F)
          alpha := s.current.alpha }
      .ok (cur, { s with current := cur, run := s.run - 1, cache := s.cache.set (HASH cur) cur }, bs2)
    | _ => .error .truncated
  else if s.runtype = 3 then
    if channels = 4 then
      match bs with
      | r :: g :: b :: a :: bs4 =>
        let cur : Color := ⟨r, g, b, a⟩
        .ok (cur, { s with current := cur, run := s.run - 1, cache := s.cache.set (HASH cur) cur }, bs4)
      | _ => .error .truncated
    else
      match bs with
      | r :: g :: b :: bs3 =>
        let cur : Color := ⟨r, g, b, s.current.alpha⟩
        .ok (cur, { s with current := cur, run := s.run - 1, cache := s.cache.set (HASH cur) cur }, bs3)
      | _ => .error .truncated
  else
    .ok (s.current, { s with run := s.run - 1, cache := s.cache.set (HASH s.current) s.current }, bs)

/-- One pixel of the decoder loop: continue a live run without reading,
or read an opcode byte and dispatch on its MSB (INDEX: emit the cache
slot, no cache update, `run` stays 0; RUN: parse `runtype` and length,
then fall through to `runcont`). -/
def decStep (channels : Nat) (s : DecState) (bs : List Nat) :
    Except RpkError (Color × DecState × List Nat) :=
  if s.run ≠ 0 then runcont channels s bs
  else
    match bs with
    | [] => .error .truncated
    | cbyte :: bs1 =>
      if cbyte &&& 0x80 = 0 then
        let cur := s.cache.getD cbyte zeroColor
        .ok (cur, { s with current := cur }, bs1)
      else
        let rt := (cbyte &&& 0x60) >>> 5
        if rt = 0 then
          match run0Length cbyte bs1 with
          | .error e => .error e
          | .ok (len, bs2) => runcont channels { s with runtype := 0, run := len } bs2
        else
          runcont channels { s with runtype := rt, run := (cbyte &&& 0x1F) + 1 } bs1

/-- Decode `n` pixels, threading state and remaining input. -/
def decGo (channels : Nat) : Nat → DecState → List Nat →
    Except RpkError (List Color × DecState × List Nat)
  | 0, s, bs => .ok ([], s, bs)
  | n + 1, s, bs =>
    match decStep channels s bs with
    | .error e => .error e
    | .ok (c, s1, bs1) =>
      match decGo channels n s1 bs1 with
      | .error e => .error e
      | .ok (cs, s2, bs2) => .ok (c :: cs, s2, bs2)

/-- The pixels produced by decoding `n` pixels from `bs`, as an
`Option` (`none` on any error). -/
def decPixels (channels n : Nat) (bs : List Nat) : Option (List Color) :=
  match decGo channels n decInit bs with
  | .ok r => some r.1
  | .error _ => none

/-- The decoder cache after decoding `n` pixels from `bs`. -/
def decCacheAfter (channels n : Nat) (bs : List Nat) : Option (List Color) :=
  match decGo channels n decInit bs with
  | .ok r => some r.2.1.cache
  | .error _ => none

/-- Image descriptor (`rpk_desc`). -/
structure RpkDesc where
  width : Nat
  height : Nat
  channels : Nat
  colorspace : Nat
deriving DecidableEq, Repr

/-- Big-endian 4-byte serialization (`htonl` + `fwrite`). -/
def be32 (n : Nat) : List Nat :=
  [n / 16777216 % 256, n / 65536 % 256, n / 256 % 256, n % 256]

/-- The magic bytes `"rpk"`. -/
def rpkMagic : List Nat := [114, 112, 107]

/-- The file header written by `rpk_write`: magic, big-endian width and
height, channels byte, colorspace byte. -/
def rpkHeader (d : RpkDesc) : List Nat :=
  rpkMagic ++ be32 d.width ++ be32 d.height ++ [d.channels, d.colorspace]

/-- The seven footer bytes written by the framer `rpk_write` after
`rpk_encode` returns (its `fwrite` of seven bytes): six zero bytes and
then the byte `1`. -/
def framerFooter : List Nat := [0, 0, 0, 0, 0, 0, 1]

/-- The complete file produced by `rpk_write`: header, codec payload,
framer footer. -/
def rpkFile (d : RpkDesc) (ps : List Color) : List Nat :=
  rpkHeader d ++ encodePixels d.channels ps ++ framerFooter

/-- The reading side `rpk_read`: check the magic (a short read is
`truncated`, a mismatch `badMagic`), read the 10 descriptor bytes,
byte-swap the dimensions, then decode `width * height` pixels. -/
def rpkRead (bs : List Nat) : Except RpkError (RpkDesc × List Color) :=
  if bs.length < 3 then .error .truncated
  else if bs.take 3 ≠ rpkMagic then .error .badMagic
  else
    let r := bs.drop 3
    if r.length < 10 then .error .truncated
    else
      let width := ((r.getD 0 0) <<< 24) ||| ((r.getD 1 0) <<< 16) |||
        ((r.getD 2 0) <<< 8) ||| r.getD 3 0
      let height := ((r.getD 4 0) <<< 24) ||| ((r.getD 5 0) <<< 16) |||
        ((r.getD 6 0) <<< 8) ||| r.getD 7 0
      let channels := r.getD 8 0
      let colorspace := r.getD 9 0
      match decGo channels (width * height) decInit (r.drop 10) with
      | .error e => .error e
      | .ok pr => .ok (⟨width, height, channels, colorspace⟩, pr.1)

/-- A row of `n` pixels alternating between `(1,0,0,255)` (even
positions) and `(0,0,0,255)` (odd positions): consecutive pixels always
differ by a two-bit delta in red, so the encoder keeps extending one
type-1 run. -/
def altPixels (n : Nat) : List Color :=
  (List.range n).map (fun i => if i % 2 = 0 then ⟨1, 0, 0, 255⟩ else ⟨0, 0, 0, 255⟩)

/-- Cache shape invariant: the cache has its 128 slots, and every slot
`i` holds either the all-zero seed pixel or a pixel whose hash is `i`. -/
def CacheInv (cache : List Color) : Prop :=
  cache.length = 128 ∧
    ∀ i, i < 128 → cache.getD i zeroColor = zeroColor ∨ HASH (cache.getD i zeroColor) = i

/-- The number of argument bytes the decoder's `RPK_READ` calls demand
for one pixel of a run of the given type: 1 for type 1, 2 for type 2,
`channels` (4 or 3) for type 3, none for type 0. -/
def argBytesNeeded (channels runtype : Nat) : Nat :=
  if runtype = 1 then 1
  else if runtype = 2 then 2
  else if runtype = 3 then (if channels = 4 then 4 else 3)
  else 0

set_option maxRecDepth 40000

/-! Helper lemmas: bit operations on `Nat` rephrased as `%`, `/`, `+`. -/

theorem and255_eq_mod (x : Nat) : x &&& 255 = x % 256 := by
  have h := Nat.and_pow_two_sub_one_eq_mod x 8
  norm_num at h
  exact h

theorem and127_eq_mod (x : Nat) : x &&& 127 = x % 128 := by
  have h := Nat.and_pow_two_sub_one_eq_mod x 7
  norm_num at h
  exact h

theorem and31_eq_mod (x : Nat) : x &&& 31 = x % 32 := by
  have h := Nat.and_pow_two_sub_one_eq_mod x 5
  norm_num at h
  exact h

theorem and15_eq_mod (x : Nat) : x &&& 15 = x % 16 := by
  have h := Nat.and_pow_two_sub_one_eq_mod x 4
  norm_num at h
  exact h

theorem and7_eq_mod (x : Nat) : x &&& 7 = x % 8 := by
  have h := Nat.and_pow_two_sub_one_eq_mod x 3
  norm_num at h
  exact h

theorem shr8_eq_div (x : Nat) : x >>> 8 = x / 256 := by
  rw [Nat.shiftRight_eq_div_pow]

theorem shr16_eq_div (x : Nat) : x >>> 16 = x / 65536 := by
  rw [Nat.shiftRight_eq_div_pow]

theorem shl8_or_eq_add (a b : Nat) (h : b < 256) : (a <<< 8) ||| b = 256 * a + b := by
  have h2 : b < 2 ^ 8 := by norm_num at h ⊢; exact h
  calc (a <<< 8) ||| b = 2 ^ 8 * a ||| b := by rw [Nat.shiftLeft_eq, Nat.mul_comm]
    _ = 2 ^ 8 * a + b := (Nat.mul_add_lt_is_or h2 a).symm
    _ = 256 * a + b := by norm_num

theorem hash_lt (c : Color) : HASH c < 128 := by
  unfold HASH
  rw [and127_eq_mod]
  exact Nat.mod_lt _ (by norm_num)

theorem getD_set_self {α : Type} (l : List α) (i : Nat) (v d : α) (h : i < l.length) :
    (l.set i v).getD i d = v := by
  induction l generalizing i with
  | nil => simp at h
  | cons a t ih =>
    cases i with
    | zero => rfl
    | succ n => simpa using ih n (by simpa using h)

theorem getD_set_ne {α : Type} (l : List α) (i j : Nat) (v d : α) (h : i ≠ j) :
    (l.set i v).getD j d = l.getD j d := by
  induction l generalizing i j with
  | nil => rfl
  | cons a t ih =>
    cases i with
    | zero =>
      cases j with
      | zero => exact absurd rfl h
      | succ m => rfl
    | succ n =>
      cases j with
      | zero => rfl
      | succ m => simpa using ih n m (by omega)

theorem cacheInv_set (cache : List Color) (q : Color) (h : CacheInv cache) :
    CacheInv (cache.set (HASH q) q) := by
  obtain ⟨hlen, hinv⟩ := h
  refine ⟨by simpa using hlen, fun i hi => ?_⟩
  by_cases hij : HASH q = i
  · right
    subst hij
    rw [getD_set_self cache (HASH q) q zeroColor (by rw [hlen]; exact hash_lt q)]
  · rw [getD_set_ne cache (HASH q) i q zeroColor hij]
    exact hinv i hi

/-- C1.  The round-trip property fails on the code: for the 33×1
4-channel image of pixels alternating between `(1,0,0,255)` and
`(0,0,0,255)`, the encoder's greedy type-1 continuation grows the
pending run to length 33, the flush emits the opcode byte
`128 + 32 + 32 = 0xC0` (which decodes as a type-2 run), and decoding
the encoder's output does not reproduce the image. -/
theorem c1_roundtrip_fails_on_long_type1_run :
    decPixels 4 33 (encodePixels 4 (altPixels 33)) ≠ some (altPixels 33) := by
  decide

/-- C2.  The bound fails on the code: after consuming the 33 pixels of
`altPixels 33` (each a two-bit delta from its predecessor), the
encoder's pending run has type 1 and length 33 — the `goto smalldiff`
continuation path has no `run == 32` flush check. -/
theorem c2_type1_run_exceeds_32 :
    (encFinal 4 (altPixels 33)).runtype = 1 ∧ (encFinal 4 (altPixels 33)).run = 33 := by
  decide

/-- C3, counterexample.  Decoding the single type-0 opcode `0x80`
(a run of length 1 repeating the initial pixel) changes cache slot 71
(= `HASH (0,0,0,255)`) from the all-zero seed to `(0,0,0,255)`: the
claim that a type-0 run leaves every cache slot unchanged is false. -/
theorem c3_counterexample :
    (decGo 3 1 decInit [128]).toOption.map (fun r => r.2.1.cache.getD 71 zeroColor) =
        some initColor ∧
      decInit.cache.getD 71 zeroColor ≠ initColor := by
  decide

/-- C3, amended.  While consuming a run of type 0 the decoder performs
`cache[HASH(current)] = current` for each produced pixel: the step
consumes no bytes, re-emits `current`, and replaces exactly the slot
`HASH current` (leaving every other slot unchanged, as `List.set`
does). -/
theorem c3_type0_updates_hash_slot (channels : Nat) (s : DecState) (bs : List Nat)
    (h1 : s.run ≠ 0) (h2 : s.runtype = 0) :
    decStep channels s bs =
      .ok (s.current,
        { s with run := s.run - 1, cache := s.cache.set (HASH s.current) s.current }, bs) := by
  unfold decStep
  rw [if_pos h1]
  unfold runcont
  rw [if_neg (by omega), if_neg (by omega), if_neg (by omega)]

/-- C3, witness for the amended theorem at a concrete state. -/
theorem c3_witness :
    decStep 3 { decInit with runtype := 0, run := 2 } [9] =
      .ok (initColor,
        { decInit with
            runtype := 0
            run := 1
            cache := decInit.cache.set (HASH initColor) initColor }, [9]) := by
  have h := c3_type0_updates_hash_slot 3 { decInit with runtype := 0, run := 2 } [9]
    (by decide) rfl
  simpa using h

/-- C4.  Cache coherence fails on the code: for the 1×1 image whose
pixel is `(0,0,0,255)` the encoder emits the byte `0x80` for pixel 1
(followed by the terminator `0x00`) and never touches its cache, while
the decoder, consuming that byte, writes `(0,0,0,255)` into slot 71 —
so the two caches differ after pixel 1. -/
theorem c4_cache_divergence :
    encodePixels 3 [initColor] = [128, 0] ∧
      (encFinal 3 [initColor]).cache.getD 71 zeroColor = zeroColor ∧
      decCacheAfter 3 1 [128] ≠ some (encFinal 3 [initColor]).cache := by
  decide

/-- C5, counterexample.  For the 1×1 black image the encoder's output
is `[0x80, 0x00]`: the last byte written by the encoder's final flush
is `0x00`, not the footer terminator `0x01`. -/
theorem c5_counterexample :
    (encodePixels 3 [initColor]).getLast? ≠ some 1 := by
  decide

/-- C7, counterexample.  Encoding the 2×1 4-channel image
`(0,0,0,255), (1,2,3,254)` does not produce the bytes the claim lists
(`A0 4D` between header and seven-zero footer prefix): the first pixel
equals the initial previous pixel and yields a type-0 run byte `0x80`,
and the type-1 argument byte is `0x6D`, not `0x4D`. -/
theorem c7_counterexample :
    rpkFile ⟨2, 1, 4, 0⟩ [⟨0, 0, 0, 255⟩, ⟨1, 2, 3, 254⟩] ≠
      rpkHeader ⟨2, 1, 4, 0⟩ ++ ([0xA0, 0x4D] ++ (List.replicate 7 0 ++ [1])) := by
  decide

/-- C7, amended.  The bytes between the header and the seven-zero
footer prefix are `0x80` (type-0 run of length 1 for the first pixel,
which equals the initial previous pixel), the type-1 opcode `0xA0`,
and the packed argument byte `0x6D`; the file then ends with seven
zero bytes and the terminator `0x01`. -/
theorem c7_encoding_bytes :
    rpkFile ⟨2, 1, 4, 0⟩ [⟨0, 0, 0, 255⟩, ⟨1, 2, 3, 254⟩] =
      rpkHeader ⟨2, 1, 4, 0⟩ ++ ([0x80, 0xA0, 0x6D] ++ (List.replicate 7 0 ++ [1])) := by
  decide

/-- C8.  The in-bounds claim fails on the code: consuming the 129
alternating-delta pixels of `altPixels 129` keeps extending one type-1
run, and the 129th pixel's `buffer[run++]` store uses index 128 — one
past the end of the 128-byte buffer. -/
theorem c8_buffer_write_out_of_bounds :
    (128 : Nat) ∈ encWrites 4 (altPixels 129) := by
  decide

/-- The final `RPK_PRINT(0)` always ends with the literal byte `0`:
`0 < 128`, so the macro prints it after the flush bytes. -/
theorem rpkPrint_zero_out (channels : Nat) (s : EncState) :
    (rpkPrint channels s 0).1 =
      (if s.run = 0 then []
       else if s.runtype ≠ 0 then
         ((128 + (s.runtype <<< 5) + (s.run - 1)) % 256) ::
           s.buffer.take (min (1 <<< (s.runtype - 1)) channels * s.run)
       else flushRun0 s.run) ++ [0] := by
  simp [rpkPrint]

/-- The encoder payload always ends with the byte `0`. -/
theorem encodePixels_concat_zero (channels : Nat) (ps : List Color) :
    ∃ l, encodePixels channels ps = l ++ [0] := by
  refine ⟨(encGo channels encInit ps).1 ++
    (if (encGo channels encInit ps).2.2.run = 0 then []
     else if (encGo channels encInit ps).2.2.runtype ≠ 0 then
       ((128 + ((encGo channels encInit ps).2.2.runtype <<< 5) +
           ((encGo channels encInit ps).2.2.run - 1)) % 256) ::
         (encGo channels encInit ps).2.2.buffer.take
           (min (1 <<< ((encGo channels encInit ps).2.2.runtype - 1)) channels *
             (encGo channels encInit ps).2.2.run)
     else flushRun0 (encGo channels encInit ps).2.2.run), ?_⟩
  show (encGo channels encInit ps).1 ++
    (rpkPrint channels (encGo channels encInit ps).2.2 0).1 = _
  rw [rpkPrint_zero_out, List.append_assoc]

/-- C5, amended.  The last byte written by the encoder's end-of-image
flush (`RPK_PRINT(0)`) is `0x00`, not `0x01`; the framer then writes
six zero bytes and the terminator `0x01`, so the complete file still
ends with seven zero bytes followed by `0x01`. -/
theorem c5_encoder_tail_and_framer_footer :
    (∀ channels ps, (encodePixels channels ps).getLast? = some 0) ∧
      framerFooter = [0, 0, 0, 0, 0, 0, 1] ∧
      (∀ d ps, ∃ l, rpkFile d ps = l ++ [0, 0, 0, 0, 0, 0, 0, 1]) := by
  refine ⟨?_, rfl, ?_⟩
  · intro c ps
    obtain ⟨l, hl⟩ := encodePixels_concat_zero c ps
    rw [hl, List.getLast?_concat]
  · intro d ps
    obtain ⟨l, hl⟩ := encodePixels_concat_zero d.channels ps
    refine ⟨rpkHeader d ++ l, ?_⟩
    unfold rpkFile framerFooter
    rw [hl]
    simp [List.append_assoc]

/-- C6.  Type-0 run lengths round-trip: for every length `1 ≤ L ≤
526352` the flush emits one, two or three bytes according to the
ranges `1..16`, `17..2064`, `2065..526352`, and the decoder's length
parser recovers exactly `L` from those bytes (consuming nothing else);
moreover one encoder step never grows a pending type-0 run beyond
526352. -/
theorem c6_run0_length_roundtrip :
    (∀ L rest, 1 ≤ L → L ≤ 526352 →
      (flushRun0 L).length = (if L ≤ 16 then 1 else if L ≤ 2064 then 2 else 3) ∧
      run0Length ((flushRun0 L).headD 0) ((flushRun0 L).tail ++ rest) = .ok (L, rest)) ∧
    (∀ channels s p, (s.runtype = 0 → s.run ≤ 526352) →
      (encStep channels s p).2.2.runtype = 0 → (encStep channels s p).2.2.run ≤ 526352) := by
  constructor
  · intro L rest h1 h2
    by_cases hL : L ≤ 16
    · have hb : (128 + (0 <<< 5) + (L - 1)) % 256 = 128 + (L - 1) := by
        rw [Nat.zero_shiftLeft]; omega
      refine ⟨?_, ?_⟩
      · simp only [flushRun0, if_pos hL]
        rfl
      · simp only [flushRun0, if_pos hL, hb, List.headD_cons, List.tail_cons, List.nil_append]
        simp only [run0Length, and31_eq_mod]
        rw [if_neg (by omega)]
        have hfin : (128 + (L - 1)) % 32 + 1 = L := by omega
        rw [hfin]
    · by_cases hM : L ≤ 2064
      · have hr : L - 17 < 2048 := by omega
        have hb : (128 + (0 <<< 5) + (16 + (L - 17) >>> 8)) % 256 = 144 + (L - 17) / 256 := by
          rw [Nat.zero_shiftLeft, shr8_eq_div]; omega
        refine ⟨?_, ?_⟩
        · simp only [flushRun0, if_neg hL, if_pos hr, if_pos hM]
          rfl
        · simp only [flushRun0, if_neg hL, if_pos hr, hb, and255_eq_mod,
            List.headD_cons, List.tail_cons, List.cons_append, List.nil_append]
          simp only [run0Length, and31_eq_mod, and15_eq_mod]
          rw [if_pos (by omega), if_neg (by omega)]
          rw [shl8_or_eq_add _ _ (Nat.mod_lt _ (by norm_num))]
          have hfin : 256 * ((144 + (L - 17) / 256) % 32 % 16) + (L - 17) % 256 + 16 + 1 = L := by
            omega
          rw [hfin]
      · have hr : ¬ (L - 17 < 2048) := by omega
        have hb : (128 + (0 <<< 5) + (24 + (L - 17 - 2048) >>> 16)) % 256 =
            152 + (L - 17 - 2048) / 65536 := by
          rw [Nat.zero_shiftLeft, shr16_eq_div]; omega
        have hm : (L - 17 - 2048) >>> 8 &&& 255 = (L - 17 - 2048) / 256 % 256 := by
          rw [shr8_eq_div, and255_eq_mod]
        refine ⟨?_, ?_⟩
        · simp only [flushRun0, if_neg hL, if_neg hr, if_neg hM]
          rfl
        · simp only [flushRun0, if_neg hL, if_neg hr, hb, hm, and255_eq_mod,
            List.headD_cons, List.tail_cons, List.cons_append, List.nil_append]
          simp only [run0Length, and31_eq_mod, and15_eq_mod, and7_eq_mod]
          rw [if_pos (by omega), if_pos (by omega)]
          rw [shl8_or_eq_add _ _ (Nat.mod_lt _ (by norm_num)),
            shl8_or_eq_add _ _ (Nat.mod_lt _ (by norm_num))]
          have hfin : 256 * (256 * ((152 + (L - 17 - 2048) / 65536) % 32 % 16 % 8) +
              (L - 17 - 2048) / 256 % 256 + 8) + (L - 17 - 2048) % 256 + 16 + 1 = L := by
            omega
          rw [hfin]
  · intro channels s p h
    by_cases h1 : EQCOLOR p s.prev
    · by_cases h2 : s.runtype = 0 ∧ s.run < 526352
      · simp only [encStep, if_pos h1, if_pos h2]
        intro _
        omega
      · simp only [encStep, if_pos h1, if_neg h2]
        intro _
        show (1 : Nat) ≤ 526352
        norm_num
    · by_cases h2 : (p.rgba ^^^ s.prev.rgba) &&& 0xFCFCFCFC = 0 ∧ s.run ≠ 0 ∧ s.runtype = 1
      · simp only [encStep, if_neg h1, if_pos h2]
        intro hrt
        simp at hrt
      · by_cases h3 : EQCOLOR p (s.cache.getD (HASH p) zeroColor)
        · simp only [encStep, if_neg h1, if_neg h2, if_pos h3]
          intro _
          show (rpkPrint channels s (HASH p)).2.run ≤ 526352
          exact Nat.zero_le _
        · by_cases h4 : (p.rgba ^^^ s.prev.rgba) &&& 0xFCFCFCFC = 0 ∧ s.runtype ≠ 2
          · simp only [encStep, if_neg h1, if_neg h2, if_neg h3, if_pos h4]
            intro hrt
            simp at hrt
          · by_cases h5 : (p.rgba ^^^ s.prev.rgba) &&& type2maskRgba = 0
            · simp only [encStep, if_neg h1, if_neg h2, if_neg h3, if_neg h4, if_pos h5]
              intro hrt
              simp at hrt
            · simp only [encStep, if_neg h1, if_neg h2, if_neg h3, if_neg h4, if_neg h5]
              intro hrt
              simp at hrt

/-- C6, witness: the boundary length 2064 uses the two-byte form and
parses back, and one encoder step from the initial state preserves the
run bound. -/
theorem c6_witness :
    ((flushRun0 2064).length = 2 ∧
      run0Length ((flushRun0 2064).headD 0) ((flushRun0 2064).tail ++ [5]) =
        .ok (2064, [5])) ∧
      ((encStep 4 encInit ⟨3, 3, 3, 255⟩).2.2.runtype = 0 →
        (encStep 4 encInit ⟨3, 3, 3, 255⟩).2.2.run ≤ 526352) := by
  have h := c6_run0_length_roundtrip.1 2064 [5] (by norm_num) (by norm_num)
  refine ⟨⟨?_, h.2⟩, c6_run0_length_roundtrip.2 4 encInit ⟨3, 3, 3, 255⟩ (by decide)⟩
  rw [h.1]
  norm_num

/-- A `runcont` call whose input holds fewer bytes than the pending
run type's per-pixel argument reads demand fails with `truncated`. -/
theorem runcont_truncated_of_short (channels : Nat) (s : DecState) (bs : List Nat)
    (h : bs.length < argBytesNeeded channels s.runtype) :
    runcont channels s bs = .error .truncated := by
  unfold runcont
  unfold argBytesNeeded at h
  by_cases h1 : s.runtype = 1
  · rw [if_pos h1] at h ⊢
    cases bs with
    | nil => rfl
    | cons b bs1 => simp only [List.length_cons] at h; omega
  · rw [if_neg h1] at h ⊢
    by_cases h2 : s.runtype = 2
    · rw [if_pos h2] at h ⊢
      rcases bs with _ | ⟨b1, _ | ⟨b2, bs2⟩⟩
      · rfl
      · rfl
      · simp only [List.length_cons] at h; omega
    · rw [if_neg h2] at h ⊢
      by_cases h3 : s.runtype = 3
      · rw [if_pos h3] at h ⊢
        by_cases hc : channels = 4
        · rw [if_pos hc] at h ⊢
          rcases bs with _ | ⟨r, _ | ⟨g, _ | ⟨b, _ | ⟨a, bs4⟩⟩⟩⟩
          · rfl
          · rfl
          · rfl
          · rfl
          · simp only [List.length_cons] at h; omega
        · rw [if_neg hc] at h ⊢
          rcases bs with _ | ⟨r, _ | ⟨g, _ | ⟨b, bs3⟩⟩⟩
          · rfl
          · rfl
          · rfl
          · simp only [List.length_cons] at h; omega
      · rw [if_neg h3] at h
        omega

/-- A run-type-0 extended-length parse whose input holds fewer bytes
than the opcode's range selector demands (one extra byte for
`16 ≤ length_lo < 24`, two for `24 ≤ length_lo`) fails with
`truncated`. -/
theorem run0Length_truncated_of_short (cbyte : Nat) (bs : List Nat)
    (h16 : 16 ≤ cbyte &&& 0x1F)
    (h : bs.length < (if cbyte &&& 0x1F < 24 then 1 else 2)) :
    run0Length cbyte bs = .error .truncated := by
  rw [and31_eq_mod] at h16 h
  simp only [run0Length, and31_eq_mod, and15_eq_mod]
  rw [if_pos h16]
  by_cases h24 : cbyte % 32 < 24
  · rw [if_pos h24] at h
    rw [if_neg (by omega)]
    cases bs with
    | nil => rfl
    | cons b bs1 => simp only [List.length_cons] at h; omega
  · rw [if_neg h24] at h
    rw [if_pos (by omega)]
    rcases bs with _ | ⟨b1, _ | ⟨b2, bs2⟩⟩
    · rfl
    · rfl
    · simp only [List.length_cons] at h; omega

/-- C9.  The reader fails with `badMagic` on every input of at least
three bytes whose first three bytes are not `"rpk"` (and this depends
on nothing past those three bytes, which is all the `fread` consumed);
it fails with `truncated` whenever a read ends short of the bytes the
header or the current opcode requires: the magic read, the descriptor
read, the opcode-byte read, a mid-run argument-payload read (types
1/2/3), an opcode-initial argument-payload read, and a run-0
extended-length tail read. -/
theorem c9_badmagic_and_truncated :
    (∀ bs, 3 ≤ bs.length → bs.take 3 ≠ rpkMagic → rpkRead bs = .error .badMagic) ∧
      (∀ bs, bs.length < 3 → rpkRead bs = .error .truncated) ∧
      (∀ bs, bs.take 3 = rpkMagic → bs.length < 13 → rpkRead bs = .error .truncated) ∧
      (∀ channels s, s.run = 0 → decStep channels s [] = .error .truncated) ∧
      (∀ channels s bs, s.run ≠ 0 → bs.length < argBytesNeeded channels s.runtype →
        decStep channels s bs = .error .truncated) ∧
      (∀ channels s cbyte bs, s.run = 0 → cbyte &&& 0x80 ≠ 0 →
        (cbyte &&& 0x60) >>> 5 ≠ 0 →
        bs.length < argBytesNeeded channels ((cbyte &&& 0x60) >>> 5) →
        decStep channels s (cbyte :: bs) = .error .truncated) ∧
      (∀ channels s cbyte bs, s.run = 0 → cbyte &&& 0x80 ≠ 0 →
        (cbyte &&& 0x60) >>> 5 = 0 → 16 ≤ cbyte &&& 0x1F →
        bs.length < (if cbyte &&& 0x1F < 24 then 1 else 2) →
        decStep channels s (cbyte :: bs) = .error .truncated) := by
  refine ⟨?_, ?_, ?_, ?_, ?_, ?_, ?_⟩
  · intro bs hlen hmag
    unfold rpkRead
    rw [if_neg (by omega), if_pos hmag]
  · intro bs hlen
    unfold rpkRead
    rw [if_pos hlen]
  · intro bs hmag hlen
    have h3 : 3 ≤ bs.length := by
      have hl := congrArg List.length hmag
      simp [List.length_take, rpkMagic] at hl
      omega
    unfold rpkRead
    rw [if_neg (by omega), if_neg (by simp [hmag]),
      if_pos (by simp only [List.length_drop]; omega)]
  · intro channels s h
    unfold decStep
    rw [if_neg (by omega)]
  · intro channels s bs hr h
    unfold decStep
    rw [if_pos hr]
    exact runcont_truncated_of_short channels s bs h
  · intro channels s cbyte bs hr hop hrt h
    unfold decStep
    rw [if_neg (by omega)]
    dsimp only
    rw [if_neg hop, if_neg hrt]
    exact runcont_truncated_of_short channels
      { s with runtype := (cbyte &&& 0x60) >>> 5, run := (cbyte &&& 0x1F) + 1 } bs h
  · intro channels s cbyte bs hr hop hrt h16 h
    unfold decStep
    rw [if_neg (by omega)]
    dsimp only
    rw [if_neg hop, if_pos hrt, run0Length_truncated_of_short cbyte bs h16 h]

/-- C9, witness at concrete inputs: uppercase magic, a two-byte file,
a good-magic file shorter than its header, an empty opcode stream, a
mid-run type-2 payload short by one byte, the type-1 opcode `0xA0`
with no argument byte, and the three-byte-form length opcode `0x98`
with only one tail byte. -/
theorem c9_witness :
    rpkRead [82, 80, 75, 0, 0] = .error .badMagic ∧
      rpkRead [114, 112] = .error .truncated ∧
      rpkRead [114, 112, 107, 0, 0] = .error .truncated ∧
      decStep 3 decInit [] = .error .truncated ∧
      decStep 3 { decInit with runtype := 2, run := 1 } [7] = .error .truncated ∧
      decStep 3 decInit [0xA0] = .error .truncated ∧
      decStep 3 decInit [0x98, 5] = .error .truncated :=
  ⟨c9_badmagic_and_truncated.1 [82, 80, 75, 0, 0] (by norm_num) (by decide),
   c9_badmagic_and_truncated.2.1 [114, 112] (by norm_num),
   c9_badmagic_and_truncated.2.2.1 [114, 112, 107, 0, 0] (by decide) (by norm_num),
   c9_badmagic_and_truncated.2.2.2.1 3 decInit rfl,
   c9_badmagic_and_truncated.2.2.2.2.1 3 { decInit with runtype := 2, run := 1 } [7]
     (by decide) (by decide),
   c9_badmagic_and_truncated.2.2.2.2.2.1 3 decInit 0xA0 [] rfl (by decide) (by decide)
     (by decide),
   c9_badmagic_and_truncated.2.2.2.2.2.2 3 decInit 0x98 [5] rfl (by decide) (by decide)
     (by decide) (by decide)⟩

/-- Every encoder step either leaves the cache unchanged or performs
exactly the store `cache[HASH(p)] = p` of the consumed pixel `p`. -/
theorem encStep_cache_shape (channels : Nat) (s : EncState) (p : Color) :
    (encStep channels s p).2.2.cache = s.cache ∨
      (encStep channels s p).2.2.cache = s.cache.set (HASH p) p := by
  by_cases h1 : EQCOLOR p s.prev
  · by_cases h2 : s.runtype = 0 ∧ s.run < 526352
    · left; simp only [encStep, if_pos h1, if_pos h2]
    · left; simp only [encStep, if_pos h1, if_neg h2, rpkPrint]
  · by_cases h2 : (p.rgba ^^^ s.prev.rgba) &&& 0xFCFCFCFC = 0 ∧ s.run ≠ 0 ∧ s.runtype = 1
    · right; simp only [encStep, if_neg h1, if_pos h2]
    · by_cases h3 : EQCOLOR p (s.cache.getD (HASH p) zeroColor)
      · left; simp only [encStep, if_neg h1, if_neg h2, if_pos h3, rpkPrint]
      · by_cases h4 : (p.rgba ^^^ s.prev.rgba) &&& 0xFCFCFCFC = 0 ∧ s.runtype ≠ 2
        · right
          simp only [encStep, if_neg h1, if_neg h2, if_neg h3, if_pos h4, rpkPrint]
          split <;> rfl
        · by_cases h5 : (p.rgba ^^^ s.prev.rgba) &&& type2maskRgba = 0
          · right
            simp only [encStep, if_neg h1, if_neg h2, if_neg h3, if_neg h4, if_pos h5, rpkPrint]
            split <;> rfl
          · right
            simp only [encStep, if_neg h1, if_neg h2, if_neg h3, if_neg h4, if_neg h5, rpkPrint]
            split <;> rfl

/-- Every successful `runcont` call either leaves the cache unchanged
or performs exactly the store `cache[HASH(cur)] = cur` of the pixel
`cur` it produced. -/
theorem runcont_ok_cache_shape (channels : Nat) (s : DecState) (bs : List Nat)
    (out : Color × DecState × List Nat) (h : runcont channels s bs = .ok out) :
    out.2.1.cache = s.cache ∨ ∃ q, out.2.1.cache = s.cache.set (HASH q) q := by
  unfold runcont at h
  by_cases h1 : s.runtype = 1
  · rw [if_pos h1] at h
    cases bs with
    | nil => exact (Except.noConfusion h)
    | cons b bs1 =>
      injection h with h2
      subst h2
      right; exact ⟨_, rfl⟩
  · rw [if_neg h1] at h
    by_cases h2 : s.runtype = 2
    · rw [if_pos h2] at h
      rcases bs with _ | ⟨b1, _ | ⟨b2, bs2⟩⟩
      · exact (Except.noConfusion h)
      · exact (Except.noConfusion h)
      · injection h with h2
        subst h2
        right; exact ⟨_, rfl⟩
    · rw [if_neg h2] at h
      by_cases h3 : s.runtype = 3
      · rw [if_pos h3] at h
        by_cases hc : channels = 4
        · rw [if_pos hc] at h
          rcases bs with _ | ⟨r, _ | ⟨g, _ | ⟨b, _ | ⟨a, bs4⟩⟩⟩⟩
          · exact (Except.noConfusion h)
          · exact (Except.noConfusion h)
          · exact (Except.noConfusion h)
          · exact (Except.noConfusion h)
          · injection h with h2
            subst h2
            right; exact ⟨_, rfl⟩
        · rw [if_neg hc] at h
          rcases bs with _ | ⟨r, _ | ⟨g, _ | ⟨b, bs3⟩⟩⟩
          · exact (Except.noConfusion h)
          · exact (Except.noConfusion h)
          · exact (Except.noConfusion h)
          · injection h with h2
            subst h2
            right; exact ⟨_, rfl⟩
      · rw [if_neg h3] at h
        injection h with h2
        subst h2
        right; exact ⟨_, rfl⟩

/-- Every successful decoder step either leaves the cache unchanged
(INDEX) or performs exactly the store `cache[HASH(current)] = current`
of the pixel it produced. -/
theorem decStep_ok_cache_shape (channels : Nat) (s : DecState) (bs : List Nat)
    (out : Color × DecState × List Nat) (h : decStep channels s bs = .ok out) :
    out.2.1.cache = s.cache ∨ ∃ q, out.2.1.cache = s.cache.set (HASH q) q := by
  unfold decStep at h
  by_cases hr : s.run ≠ 0
  · rw [if_pos hr] at h
    exact runcont_ok_cache_shape channels s bs out h
  · rw [if_neg hr] at h
    cases bs with
    | nil => exact (Except.noConfusion h)
    | cons cbyte bs1 =>
      dsimp only at h
      by_cases hm : cbyte &&& 0x80 = 0
      · rw [if_pos hm] at h
        injection h with h2
        subst h2
        left; rfl
      · rw [if_neg hm] at h
        by_cases hz : (cbyte &&& 0x60) >>> 5 = 0
        · rw [if_pos hz] at h
          cases hq : run0Length cbyte bs1 with
          | error e =>
            rw [hq] at h
            exact (Except.noConfusion h)
          | ok pr =>
            obtain ⟨len, bs2⟩ := pr
            rw [hq] at h
            dsimp only at h
            exact runcont_ok_cache_shape channels { s with runtype := 0, run := len } bs2 out h
        · rw [if_neg hz] at h
          exact runcont_ok_cache_shape channels
            { s with runtype := (cbyte &&& 0x60) >>> 5, run := (cbyte &&& 0x1F) + 1 } bs1 out h

/-- C10.  From the all-zero initial caches, every cache write on either
side stores a pixel at its own hash index, so in every reachable state
each slot `i` holds either the all-zero pixel or a pixel `p` with
`HASH p = i`. -/
theorem c10_cache_hash_invariant :
    CacheInv encInit.cache ∧ CacheInv decInit.cache ∧
      (∀ channels s p, CacheInv s.cache → CacheInv (encStep channels s p).2.2.cache) ∧
      (∀ channels s bs out, decStep channels s bs = .ok out → CacheInv s.cache →
        CacheInv out.2.1.cache) := by
  refine ⟨⟨rfl, by decide⟩, ⟨rfl, by decide⟩, ?_, ?_⟩
  · intro channels s p hin
    rcases encStep_cache_shape channels s p with hc | hc
    · rw [hc]; exact hin
    · rw [hc]; exact cacheInv_set _ _ hin
  · intro channels s bs out h hin
    rcases decStep_ok_cache_shape channels s bs out h with hc | ⟨q, hc⟩
    · rw [hc]; exact hin
    · rw [hc]; exact cacheInv_set _ _ hin

/-- C10, witness: one encoder step and one decoder step from the
initial states, with the hypotheses discharged concretely. -/
theorem c10_witness :
    CacheInv (encStep 4 encInit ⟨10, 20, 30, 40⟩).2.2.cache ∧
      CacheInv ((initColor,
        { decInit with
            runtype := 0
            run := 0
            cache := decInit.cache.set (HASH initColor) initColor },
        ([] : List Nat)) : Color × DecState × List Nat).2.1.cache :=
  ⟨c10_cache_hash_invariant.2.2.1 4 encInit ⟨10, 20, 30, 40⟩ ⟨rfl, by decide⟩,
   c10_cache_hash_invariant.2.2.2 3 decInit [128] _ rfl ⟨rfl, by decide⟩⟩

end RPK
